import Mathlib

/-!
Verification of the dialogue-to-audio pipeline in `main.py`.

The program is a linear batch pipeline: parse a dialogue text file into
(speaker, text) pairs, map each speaker to a voice (either a validated
user-supplied JSON map or round-robin over the provider's catalog),
synthesize each line, splice the decoded segments with clamped random
pauses, and export one audio file.

Shallow embedding conventions:
* Python strings are `List Char` (abbreviated `Str`); the ASCII fragments
  of `str.strip()`, `\w` and `\s` are modelled (the inputs of interest are
  ASCII).
* `re.match(r"(\w+):\s*(.+)", line.strip())` is modelled by
  `re_match_line`.  Because the line is stripped first it cannot end in
  whitespace, so the greedy maximal-munch reading of `(\w+)`, `\s*` and
  `(.+)` used below coincides with the regex engine's backtracking
  semantics.
* The Python `set` used in `parse_dialogue_file` has an unspecified
  iteration order (string hashing is randomized per process), so
  `list(characters)` is modelled as an arbitrary enumeration of the
  distinct speakers: any permutation of the canonical first-seen list
  (`is_characters_list`).
* Fallible Python code (uncaught `ZeroDivisionError` from `i % 0`,
  `KeyError` from `voice_map[character]`, `sys.exit(1)`) is modelled with
  `Option` / `Except RunError`.
* `pydub.AudioSegment` is modelled by its duration in milliseconds:
  concatenation adds durations, `AudioSegment.silent(d)` has duration `d`,
  `AudioSegment.empty()` has duration 0.
* `np.random.normal(mean, stdev)` is modelled by the reparameterization
  `mean + stdev * z` over `ℚ`, with the standard-normal draw `z` passed
  explicitly; Python's `int(...)` truncates toward zero (`Int.tdiv`).
-/

/-- Python strings, modelled as lists of characters. -/
abbrev Str := List Char

/-- ASCII fragment of the whitespace class stripped by `str.strip()` and
matched by the regex class `\s`. -/
def pyIsSpace (c : Char) : Bool :=
  c = ' ' || c = '\t' || c = '\n' || c = '\r' || c = '\x0b' || c = '\x0c'

/-- ASCII fragment of the regex word class `\w`: letters, digits and
underscore. -/
def pyIsWord (c : Char) : Bool := c.isAlphanum || c = '_'

/-- `line.strip()`: remove leading and trailing whitespace. -/
def pyStrip (s : Str) : Str :=
  ((s.dropWhile pyIsSpace).reverse.dropWhile pyIsSpace).reverse

/-- `re.match(r"(\w+):\s*(.+)", line.strip())`, returning the two capture
groups: a non-empty run of word characters, a literal colon, any
whitespace, then a non-empty remainder. -/
def re_match_line (line : Str) : Option (Str × Str) :=
  match (pyStrip line).takeWhile pyIsWord, (pyStrip line).dropWhile pyIsWord with
  | n :: nm, ':' :: rest =>
      match rest.dropWhile pyIsSpace with
      | [] => none
      | c :: text => some (n :: nm, c :: text)
  | _, _ => none

/-- `content.split("\n")`: split on newlines, keeping empty pieces
(Python's `"".split("\n") == [""]`). -/
def split_newlines (s : Str) : List Str :=
  match s with
  | [] => [[]]
  | c :: rest =>
      if c = '\n' then [] :: split_newlines rest
      else
        match split_newlines rest with
        | [] => [[c]]
        | l :: ls => (c :: l) :: ls

/-- The loop body of `parse_dialogue_file`: collect the `(character, text)`
pair of every line the regex matches, skipping the rest. -/
def parse_lines (lines : List Str) : List (Str × Str) :=
  lines.filterMap re_match_line

/-- The `dialogue` component returned by `parse_dialogue_file`, as a
function of the file's content. -/
def parse_dialogue_file (content : Str) : List (Str × Str) :=
  parse_lines (split_newlines content)

/-- Deduplication keeping the first occurrence of each element. -/
def first_seen_aux (seen : List Str) : List Str → List Str
  | [] => []
  | a :: rest =>
      if a ∈ seen then first_seen_aux seen rest
      else a :: first_seen_aux (a :: seen) rest

/-- The distinct speakers of a dialogue file in first-seen order: the
canonical representative of the contents of the Python set `characters`
built by `parse_dialogue_file`. -/
def speakers_first_seen (content : Str) : List Str :=
  first_seen_aux [] ((parse_dialogue_file content).map Prod.fst)

/-- The possible values of `list(characters)` in `parse_dialogue_file`:
Python set iteration order is unspecified (per-process hash
randomization), so the returned list is some enumeration — each distinct
speaker exactly once, in an arbitrary order, i.e. a permutation of the
first-seen list. -/
def is_characters_list (content : Str) (enum : List Str) : Prop :=
  enum.Perm (speakers_first_seen content)

/-- `assign_voices_to_characters`: `voice_map[character] =
available_voices[i % len(available_voices)]` for each `i, character` in
`enumerate(characters)`.  When `available_voices` is empty and the loop
runs at least once, `i % 0` raises `ZeroDivisionError`, modelled as
`none`. -/
def assign_voices_to_characters (characters voices : List Str) :
    Option (List (Str × Str)) :=
  match voices with
  | [] => if characters.isEmpty then some [] else none
  | _ :: _ =>
      some (characters.enum.map fun p => (p.2, voices.getD (p.1 % voices.length) []))

/-- `set(custom_voice_map.values()) - set(available_voices)` in `main`.
The result is a set; we represent its contents as a deduplicated list
(its iteration order is likewise unspecified, which no claim depends
on). -/
def invalid_voices (custom : List (Str × Str)) (available : List Str) : List Str :=
  ((custom.map Prod.snd).filter (fun v => decide (v ∉ available))).dedup

/-- Abnormal terminations of `main`: an explicit `sys.exit(code)` after
printing the listed diagnostic names, or an uncaught Python exception. -/
inductive RunError where
  | exited (code : Nat) (invalid : List Str) (available : List Str)
  | pyError (msg : String)
deriving DecidableEq

/-- The sequence of synthesis calls `(voice, text)` issued by
`create_conversation_audio` via `generate_character_audio`: each line's
speaker is looked up in `voice_map` (a `KeyError` on a missing speaker is
an uncaught exception). -/
def synth_calls (dialogue : List (Str × Str)) (vm : List (Str × Str)) :
    Except RunError (List (Str × Str)) :=
  dialogue.mapM fun p =>
    match vm.lookup p.1 with
    | some v => Except.ok (v, p.2)
    | none => Except.error (.pyError "KeyError")

/-- The control flow of `main` from voice-map resolution through the
synthesis loop: custom mode validates the map's voice values and either
exits with code 1 (before any synthesis call) or uses the map verbatim;
auto mode round-robins over the catalog (crashing on an empty catalog).
On success it returns the voice map used and the synthesis calls made. -/
def main_model (dialogue : List (Str × Str)) (characters : List Str)
    (speaker_map : Option (List (Str × Str))) (available : List Str) :
    Except RunError (List (Str × Str) × List (Str × Str)) :=
  match speaker_map with
  | some custom =>
      if (invalid_voices custom available).isEmpty then
        match synth_calls dialogue custom with
        | .ok calls => .ok (custom, calls)
        | .error e => .error e
      else .error (.exited 1 (invalid_voices custom available) available)
  | none =>
      match assign_voices_to_characters characters available with
      | none => .error (.pyError "ZeroDivisionError")
      | some vm =>
          match synth_calls dialogue vm with
          | .ok calls => .ok (vm, calls)
          | .error e => .error e

/-- `pydub.AudioSegment`, modelled by its duration in milliseconds. -/
structure AudioSeg where
  duration_ms : Nat
deriving DecidableEq

/-- `AudioSegment.empty()`. -/
def AudioSeg.empty : AudioSeg := ⟨0⟩

/-- `a + b` on audio segments: concatenation, durations add. -/
def AudioSeg.append (a b : AudioSeg) : AudioSeg := ⟨a.duration_ms + b.duration_ms⟩

/-- `AudioSegment.silent(duration=d)`. -/
def AudioSeg.silent (d : Nat) : AudioSeg := ⟨d⟩

/-- The accumulation loop of `create_conversation_audio`:
`conversation += audio_segment + AudioSegment.silent(duration=pause)` for
each line, starting from `AudioSegment.empty()`.  `items` lists, in
dialogue order, each line's decoded segment and its clamped pause
duration. -/
def create_conversation_audio (items : List (AudioSeg × Nat)) : AudioSeg :=
  items.foldl (fun conv p => conv.append (p.1.append (AudioSeg.silent p.2))) AudioSeg.empty

/-- `np.random.normal(mean, stdev)` via reparameterization: `z` is the
standard-normal draw. -/
def np_random_normal (mean stdev z : ℚ) : ℚ := mean + stdev * z

/-- Python `int(...)` on a real value: truncation toward zero. -/
def py_int (q : ℚ) : Int := Int.tdiv q.num q.den

/-- Lines 68-69 of `main.py`:
`pause_duration = int(np.random.normal(pause_mean, pause_stdev))` then
`pause_duration = max(0, pause_duration)`. -/
def pause_duration (mean stdev z : ℚ) : Int :=
  max 0 (py_int (np_random_normal mean stdev z))

/-- `input_file.rsplit('.', 1)[0]`: everything before the last dot, or the
whole string when it has no dot. -/
def rsplit_stem (s : Str) : Str :=
  if '.' ∈ s then ((s.reverse.dropWhile (fun c => c != '.')).drop 1).reverse else s

/-- Line 102 of `main.py`:
`output_file = f"{args.input_file.rsplit('.', 1)[0]}_output.wav"`. -/
def output_file (input_file : Str) : Str :=
  rsplit_stem input_file ++ "_output.wav".data

/-! ### Helper lemmas -/

theorem takeWhile_all_append (p : Char → Bool) (l1 : Str) (a : Char) (l2 : Str)
    (h1 : ∀ x ∈ l1, p x = true) (h2 : p a = false) :
    (l1 ++ a :: l2).takeWhile p = l1 := by
  induction l1 with
  | nil => simp [List.takeWhile_cons, h2]
  | cons b bs ih =>
      have hb : p b = true := h1 b (by simp)
      simp only [List.cons_append, List.takeWhile_cons, hb, if_true]
      rw [ih (fun x hx => h1 x (by simp [hx]))]

theorem dropWhile_all_append (p : Char → Bool) (l1 : Str) (a : Char) (l2 : Str)
    (h1 : ∀ x ∈ l1, p x = true) (h2 : p a = false) :
    (l1 ++ a :: l2).dropWhile p = a :: l2 := by
  induction l1 with
  | nil => simp [List.dropWhile_cons, h2]
  | cons b bs ih =>
      have hb : p b = true := h1 b (by simp)
      simp only [List.cons_append, List.dropWhile_cons, hb, if_true]
      exact ih (fun x hx => h1 x (by simp [hx]))

theorem mem_takeWhile_pred (p : Char → Bool) (l : Str) :
    ∀ x ∈ l.takeWhile p, p x = true := fun _ hx => List.mem_takeWhile_imp hx

theorem mem_first_seen_aux (l : List Str) :
    ∀ (seen : List Str) (x : Str), x ∈ first_seen_aux seen l ↔ x ∈ l ∧ x ∉ seen := by
  induction l with
  | nil => intro seen x; simp [first_seen_aux]
  | cons a rest ih =>
      intro seen x
      by_cases ha : a ∈ seen
      · simp only [first_seen_aux, if_pos ha, ih, List.mem_cons]
        constructor
        · rintro ⟨hx, hns⟩
          exact ⟨Or.inr hx, hns⟩
        · rintro ⟨rfl | hx, hns⟩
          · exact absurd ha hns
          · exact ⟨hx, hns⟩
      · simp only [first_seen_aux, if_neg ha, List.mem_cons, ih]
        constructor
        · rintro (rfl | ⟨hx, hns⟩)
          · exact ⟨Or.inl rfl, ha⟩
          · exact ⟨Or.inr hx, fun hxs => hns (Or.inr hxs)⟩
        · rintro ⟨rfl | hx, hns⟩
          · exact Or.inl rfl
          · by_cases hxa : x = a
            · exact Or.inl hxa
            · exact Or.inr ⟨hx, fun h => h.elim hxa hns⟩

theorem nodup_first_seen_aux (l : List Str) :
    ∀ seen : List Str, (first_seen_aux seen l).Nodup := by
  induction l with
  | nil => intro seen; simp [first_seen_aux]
  | cons a rest ih =>
      intro seen
      by_cases ha : a ∈ seen
      · simpa [first_seen_aux, if_pos ha] using ih seen
      · simp only [first_seen_aux, if_neg ha, List.nodup_cons]
        refine ⟨fun hmem => ?_, ih (a :: seen)⟩
        exact ((mem_first_seen_aux rest (a :: seen) a).mp hmem).2 (List.mem_cons_self a seen)

theorem nodup_speakers_first_seen (content : Str) : (speakers_first_seen content).Nodup :=
  nodup_first_seen_aux _ []

theorem lookup_enumFrom_map (f : Nat → Str) :
    ∀ (chars : List Str) (n i : Nat) (h : i < chars.length), chars.Nodup →
      List.lookup (chars.get ⟨i, h⟩)
        ((List.enumFrom n chars).map fun p => (p.2, f p.1)) = some (f (n + i)) := by
  intro chars
  induction chars with
  | nil => intro n i h _; exact absurd h (by simp)
  | cons a rest ih =>
      intro n i h hnd
      cases i with
      | zero =>
          simp [List.enumFrom_cons, List.lookup]
      | succ j =>
          have hj : j < rest.length := Nat.lt_of_succ_lt_succ h
          have hget : (a :: rest).get ⟨j + 1, h⟩ = rest.get ⟨j, hj⟩ := rfl
          have hmem : rest.get ⟨j, hj⟩ ∈ rest := List.get_mem rest j hj
          have hne : rest.get ⟨j, hj⟩ ≠ a := by
            intro hEq
            exact (List.nodup_cons.mp hnd).1 (hEq ▸ hmem)
          have hbeq : (rest.get ⟨j, hj⟩ == a) = false := beq_eq_false_iff_ne.mpr hne
          rw [List.enumFrom_cons, List.map_cons, hget, List.lookup_cons, hbeq]
          have hidx : n + 1 + j = n + (j + 1) := by omega
          rw [ih (n + 1) j hj (List.nodup_cons.mp hnd).2, hidx]

theorem duration_foldl (items : List (AudioSeg × Nat)) :
    ∀ acc : AudioSeg,
      (items.foldl (fun conv p => conv.append (p.1.append (AudioSeg.silent p.2))) acc).duration_ms
        = acc.duration_ms + (items.map (fun p => p.1.duration_ms + p.2)).sum := by
  induction items with
  | nil => intro acc; simp
  | cons hd tl ih =>
      intro acc
      rw [List.foldl_cons, ih]
      simp only [List.map_cons, List.sum_cons, AudioSeg.append, AudioSeg.silent]
      omega

theorem invalid_voices_eq_nil_iff (custom : List (Str × Str)) (available : List Str) :
    invalid_voices custom available = [] ↔ ∀ v ∈ custom.map Prod.snd, v ∈ available := by
  simp [invalid_voices, List.dedup_eq_nil, List.filter_eq_nil_iff]

/-! ### Claim theorems -/

/-- Claim C1, counterexample: `parse_dialogue_file` returns
`list(characters)` for a Python *set* `characters`, whose iteration order
is unspecified; for the input `"B: hi\nA: yo"` the enumeration
`["A", "B"]` is a possible value of `list(characters)` and it is not the
first-seen order `["B", "A"]`.  So the speaker list is not guaranteed to
be in first-seen order. -/
theorem C1_counterexample :
    is_characters_list ("B: hi\nA: yo".data) [['A'], ['B']] ∧
    [['A'], ['B']] ≠ speakers_first_seen ("B: hi\nA: yo".data) := by
  constructor
  · unfold is_characters_list
    decide
  · decide

/-- Claim C1 (amended): for every input, every possible speaker list
produced by parsing (any enumeration of the Python set `characters`)
contains no duplicates and contains exactly the distinct speakers of the
file; its order, however, is an unspecified permutation of the first-seen
order, not necessarily the first-seen order itself. -/
theorem C1_characters_distinct_unordered :
    ∀ (content : Str) (enum : List Str), is_characters_list content enum →
      enum.Nodup ∧ ∀ s : Str, s ∈ enum ↔ s ∈ speakers_first_seen content := by
  intro content enum h
  have hp : enum.Perm (speakers_first_seen content) := h
  exact ⟨hp.nodup_iff.mpr (nodup_speakers_first_seen content), fun s => hp.mem_iff⟩

/-- Claim C1 amended-theorem witness at the concrete input
`"B: hi\nA: yo"` and enumeration `["A", "B"]`. -/
theorem C1_witness :
    ([['A'], ['B']] : List Str).Nodup ∧
    ((['A'] : Str) ∈ ([['A'], ['B']] : List Str) ↔
      (['A'] : Str) ∈ speakers_first_seen ("B: hi\nA: yo".data)) := by
  have h := C1_characters_distinct_unordered ("B: hi\nA: yo".data) [['A'], ['B']]
    (by unfold is_characters_list; decide)
  exact ⟨h.1, h.2 ['A']⟩

/-- Claim C4: the claim says an empty voice catalog is guarded and
reported as a clear fatal configuration error; the code instead reaches
`available_voices[i % len(available_voices)]` with `len = 0`, an
unguarded `ZeroDivisionError`.  This theorem evaluates the model at the
failing input (one speaker, empty catalog): auto mode ends in the
uncaught exception, not a clean configuration error. -/
theorem C4_empty_catalog_unguarded_crash :
    main_model [(['A'], "hi".data)] [['A']] none []
      = .error (.pyError "ZeroDivisionError") ∧
    assign_voices_to_characters [['A']] [] = none := ⟨rfl, rfl⟩

/-- Claim C5: the claim says every run reaching assembly has a voice-map
entry for every speaker of the dialogue, so the per-line lookup never
fails.  In custom mode nothing checks that the user map covers the
speakers: with dialogue `"A: hi"`, custom map `{"B": "v1"}` and catalog
`["v1"]`, validation passes (all map values are available), assembly
begins, and the first lookup `voice_map["A"]` raises `KeyError`. -/
theorem C5_custom_map_missing_speaker_keyerror :
    main_model (parse_dialogue_file ("A: hi".data)) (speakers_first_seen ("A: hi".data))
      (some [(['B'], "v1".data)]) ["v1".data] = .error (.pyError "KeyError") := rfl

/-- Claim C7: the pause duration `max(0, int(np.random.normal(mean,
stdev)))` is never negative for any mean, stdev and draw; and with
`mean = 500`, `stdev = 0` it is exactly 500 for every draw. -/
theorem C7_pause_clamped_and_degenerate :
    (∀ mean stdev z : ℚ, 0 ≤ pause_duration mean stdev z) ∧
    (∀ z : ℚ, pause_duration 500 0 z = 500) := by
  constructor
  · intro mean stdev z
    exact le_max_left 0 _
  · intro z
    have h : np_random_normal 500 0 z = (500 : ℚ) := by
      unfold np_random_normal; ring
    unfold pause_duration
    rw [h]
    decide

/-- Claim C8, counterexample: the loop appends a pause after *every*
line, the last included, so two lines of 1000 ms and 1500 ms with a fixed
200 ms pause assemble to 2900 ms, not the 2700 ms the claim states. -/
theorem C8_counterexample :
    (create_conversation_audio [(⟨1000⟩, 200), (⟨1500⟩, 200)]).duration_ms = 2900 ∧
    (2900 : Nat) ≠ 2700 := by
  constructor
  · decide
  · decide

/-- Claim C8 (amended): the assembled timeline's total duration equals
the sum, in dialogue order, of each segment's duration plus each inserted
pause's duration, where a pause is inserted after every line including
the last; hence two lines of 1000 ms and 1500 ms with fixed 200 ms pauses
yield 2900 ms. -/
theorem C8_total_duration_is_sum :
    (∀ items : List (AudioSeg × Nat),
        (create_conversation_audio items).duration_ms
          = (items.map (fun p => p.1.duration_ms + p.2)).sum) ∧
    (create_conversation_audio [(⟨1000⟩, 200), (⟨1500⟩, 200)]).duration_ms = 2900 := by
  constructor
  · intro items
    unfold create_conversation_audio
    rw [duration_foldl]
    simp [AudioSeg.empty]
  · decide

/-- Claim C9: the output filename strips only the last dot-separated
extension of the input path and appends `"_output.wav"`: concretely for
`"script.txt"` and `"a.b.txt"`, and in general for any `stem ++ "." ++
ext` with a dot-free `ext`. -/
theorem C9_output_filename_derivation :
    output_file ("script.txt".data) = "script_output.wav".data ∧
    output_file ("a.b.txt".data) = "a.b_output.wav".data ∧
    ∀ (stem ext : Str), '.' ∉ ext →
      output_file (stem ++ '.' :: ext) = stem ++ "_output.wav".data := by
  refine ⟨by decide, by decide, ?_⟩
  intro stem ext hext
  unfold output_file rsplit_stem
  have hmem : '.' ∈ stem ++ '.' :: ext := by simp
  rw [if_pos hmem]
  have hrev : (stem ++ '.' :: ext).reverse = ext.reverse ++ '.' :: stem.reverse := by
    simp [List.reverse_append]
  rw [hrev]
  have hdrop : (ext.reverse ++ '.' :: stem.reverse).dropWhile (fun c => c != '.')
      = '.' :: stem.reverse := by
    apply dropWhile_all_append
    · intro x hx
      have hxe : x ∈ ext := List.mem_reverse.mp hx
      have hxne : x ≠ '.' := fun hEq => hext (hEq ▸ hxe)
      simpa using hxne
    · simp
  rw [hdrop]
  simp

/-- Claim C9 witness: the general derivation rule applied to
`"notes" ++ "." ++ "txt"`. -/
theorem C9_witness :
    '.' ∉ ("txt".data) ∧
    output_file ("notes".data ++ '.' :: "txt".data) = "notes".data ++ "_output.wav".data := by
  have h : '.' ∉ ("txt".data) := by decide
  exact ⟨h, C9_output_filename_derivation.2.2 ("notes".data) ("txt".data) h⟩

/-- Claim C2: in auto-assignment mode, for any duplicate-free speaker
list and non-empty catalog, the speaker at index `i` of the list is
assigned the voice at catalog index `i % V`; in particular 5 speakers
with 3 voices receive the voices at indices `[0, 1, 2, 0, 1]`. -/
theorem C2_round_robin_assignment :
    (∀ (characters voices : List Str) (vm : List (Str × Str)) (i : Nat)
        (hi : i < characters.length), characters.Nodup → ∀ (hv : voices ≠ []),
        assign_voices_to_characters characters voices = some vm →
        vm.lookup (characters.get ⟨i, hi⟩)
          = some (voices.get ⟨i % voices.length, Nat.mod_lt i (List.length_pos.mpr hv)⟩)) ∧
    assign_voices_to_characters
        ["s0".data, "s1".data, "s2".data, "s3".data, "s4".data]
        ["v0".data, "v1".data, "v2".data]
      = some [("s0".data, "v0".data), ("s1".data, "v1".data), ("s2".data, "v2".data),
              ("s3".data, "v0".data), ("s4".data, "v1".data)] := by
  constructor
  · intro characters voices vm i hi hnd hv hassign
    cases voices with
    | nil => exact absurd rfl hv
    | cons v vs =>
        have hvm : vm = characters.enum.map
            (fun p => (p.2, (v :: vs).getD (p.1 % (v :: vs).length) [])) := by
          simpa [assign_voices_to_characters] using hassign.symm
        subst hvm
        have h0 := lookup_enumFrom_map
          (fun j => (v :: vs).getD (j % (v :: vs).length) []) characters 0 i hi hnd
        have henum : characters.enum = List.enumFrom 0 characters := rfl
        rw [henum, h0, Nat.zero_add]
        have hlt : i % (v :: vs).length < (v :: vs).length :=
          Nat.mod_lt i (by simp)
        show some ((v :: vs).getD (i % (v :: vs).length) []) = _
        rw [List.getD_eq_getElem _ _ hlt]
        rfl
  · decide

/-- Claim C2 witness: two speakers, one voice; the speaker at index 1
gets the voice at index `1 % 1 = 0`. -/
theorem C2_witness :
    List.lookup ((["a".data, "b".data] : List Str).get ⟨1, by decide⟩)
        [("a".data, "x".data), ("b".data, "x".data)]
      = some ((["x".data] : List Str).get ⟨1 % 1, by decide⟩) :=
  C2_round_robin_assignment.1 ["a".data, "b".data] ["x".data]
    [("a".data, "x".data), ("b".data, "x".data)] 1 (by decide) (by decide) (by decide)
    (by decide)

/-- Claim C3: in custom mode, when every voice value of the user map is
available the map is used verbatim (the run proceeds to synthesis with
exactly that map); when some value is unavailable the run stops with exit
code 1, reporting the offending names and the available catalog, before
any synthesis call (the error is produced instead of the synthesis-call
list). -/
theorem C3_custom_mode_validation :
    ∀ (dialogue : List (Str × Str)) (characters : List Str)
      (custom : List (Str × Str)) (available : List Str),
      ((∀ v ∈ custom.map Prod.snd, v ∈ available) →
        ∀ calls, synth_calls dialogue custom = .ok calls →
          main_model dialogue characters (some custom) available = .ok (custom, calls)) ∧
      ((∃ v ∈ custom.map Prod.snd, v ∉ available) →
        invalid_voices custom available ≠ [] ∧
        main_model dialogue characters (some custom) available
          = .error (.exited 1 (invalid_voices custom available) available)) := by
  intro dialogue characters custom available
  constructor
  · intro hall calls hcalls
    have hinv : invalid_voices custom available = [] :=
      (invalid_voices_eq_nil_iff custom available).mpr hall
    simp only [main_model, hinv, List.isEmpty_nil, if_true, hcalls]
  · rintro ⟨v, hv, hnv⟩
    have hinv : invalid_voices custom available ≠ [] := fun h =>
      hnv (((invalid_voices_eq_nil_iff custom available).mp h) v hv)
    refine ⟨hinv, ?_⟩
    have hne : (invalid_voices custom available).isEmpty = false := by
      rcases h : invalid_voices custom available with _ | ⟨a, l⟩
      · exact absurd h hinv
      · rfl
    simp only [main_model, hne, Bool.false_eq_true, if_false]

/-- Claim C3 witness: with catalog `["v1"]`, the map `{"A": "v1"}` is
used verbatim and synthesis proceeds; the map `{"A": "v9"}` makes the run
exit with code 1 and the diagnostic listing before any synthesis call. -/
theorem C3_witness :
    main_model [("A".data, "hi".data)] [] (some [("A".data, "v1".data)]) ["v1".data]
        = .ok ([("A".data, "v1".data)], [("v1".data, "hi".data)]) ∧
    main_model [("A".data, "hi".data)] [] (some [("A".data, "v9".data)]) ["v1".data]
        = .error (.exited 1 (invalid_voices [("A".data, "v9".data)] ["v1".data])
            ["v1".data]) := by
  constructor
  · exact (C3_custom_mode_validation [("A".data, "hi".data)] [] [("A".data, "v1".data)]
      ["v1".data]).1 (by decide) [("v1".data, "hi".data)] rfl
  · exact ((C3_custom_mode_validation [("A".data, "hi".data)] [] [("A".data, "v9".data)]
      ["v1".data]).2 (by decide)).2

/-- Claim C6: any line whose stripped form is a word-character name, a
colon, optional whitespace and a non-empty remainder parses to the pair
(name, remainder) — speaker and text with surrounding whitespace trimmed;
a line the regex does not match contributes nothing (and no error) to the
dialogue, and a matching line contributes exactly its pair. -/
theorem C6_well_formed_parse_and_silent_skip :
    (∀ (line name ws text : Str) (c : Char),
        pyStrip line = name ++ ':' :: (ws ++ c :: text) →
        name ≠ [] →
        (∀ x ∈ name, pyIsWord x = true) →
        (∀ x ∈ ws, pyIsSpace x = true) →
        pyIsSpace c = false →
        re_match_line line = some (name, c :: text)) ∧
    (∀ (line : Str) (rest : List Str),
        re_match_line line = none → parse_lines (line :: rest) = parse_lines rest) ∧
    (∀ (line : Str) (rest : List Str) (name text : Str),
        re_match_line line = some (name, text) →
        parse_lines (line :: rest) = (name, text) :: parse_lines rest) := by
  refine ⟨?_, ?_, ?_⟩
  · intro line name ws text c hstrip hne hword hws hc
    have hcolon : pyIsWord ':' = false := by decide
    have htake : (pyStrip line).takeWhile pyIsWord = name := by
      rw [hstrip]
      exact takeWhile_all_append pyIsWord name ':' (ws ++ c :: text) hword hcolon
    have hdrop : (pyStrip line).dropWhile pyIsWord = ':' :: (ws ++ c :: text) := by
      rw [hstrip]
      exact dropWhile_all_append pyIsWord name ':' (ws ++ c :: text) hword hcolon
    have hdrop2 : (ws ++ c :: text).dropWhile pyIsSpace = c :: text :=
      dropWhile_all_append pyIsSpace ws c text hws hc
    obtain ⟨n, nm, rfl⟩ : ∃ n nm, name = n :: nm := by
      cases name with
      | nil => exact absurd rfl hne
      | cons n nm => exact ⟨n, nm, rfl⟩
    unfold re_match_line
    rw [htake, hdrop]
    show (match (ws ++ c :: text).dropWhile pyIsSpace with
          | [] => none
          | c2 :: text2 => some (n :: nm, c2 :: text2)) = some (n :: nm, c :: text)
    rw [hdrop2]
  · intro line rest h
    simp [parse_lines, List.filterMap_cons, h]
  · intro line rest name text h
    simp [parse_lines, List.filterMap_cons, h]

/-- Claim C6 witness: `" Alice:  hello "` parses with trimmed speaker
`"Alice"` and text `"hello"`; the malformed line `"no colon here"` is
silently skipped. -/
theorem C6_witness :
    re_match_line (" Alice:  hello ".data) = some ("Alice".data, "hello".data) ∧
    parse_lines (("no colon here".data) :: ["Bob: yo".data])
      = parse_lines ["Bob: yo".data] := by
  constructor
  · exact C6_well_formed_parse_and_silent_skip.1 (" Alice:  hello ".data) ("Alice".data)
      [' ', ' '] ("ello".data) 'h' (by decide) (by decide) (by decide) (by decide)
      (by decide)
  · exact C6_well_formed_parse_and_silent_skip.2.1 ("no colon here".data) ["Bob: yo".data]
      (by decide)

/-- Claim C10: a line is matched only when the prefix before the colon is
a non-empty run of word characters (letters, digits, underscore) and the
text after the colon (and any whitespace) is non-empty; concretely,
`"Dr. Smith: hello"` (speaker contains a dot and a space) and `"Name:"`
(empty text) produce no dialogue line. -/
theorem C10_match_requires_word_speaker_and_text :
    (∀ (line name text : Str), re_match_line line = some (name, text) →
        name ≠ [] ∧ (∀ x ∈ name, pyIsWord x = true) ∧ text ≠ []) ∧
    re_match_line ("Dr. Smith: hello".data) = none ∧
    re_match_line ("Name:".data) = none := by
  refine ⟨?_, by decide, by decide⟩
  intro line name text h
  unfold re_match_line at h
  split at h
  · rename_i n nm rest htake hdrop
    split at h
    · exact absurd h (by simp)
    · rename_i c txt hdrop2
      injection h with h2
      have hname : name = n :: nm := (congrArg Prod.fst h2).symm
      have htext : text = c :: txt := (congrArg Prod.snd h2).symm
      subst hname
      subst htext
      refine ⟨by simp, ?_, by simp⟩
      intro x hx
      exact mem_takeWhile_pred pyIsWord (pyStrip line) x (htake ▸ hx)
  · exact absurd h (by simp)

/-- Claim C10 witness: the soundness direction applied to the matching
line `"Alice: hi"`. -/
theorem C10_witness :
    "Alice".data ≠ ([] : Str) ∧ (∀ x ∈ "Alice".data, pyIsWord x = true) ∧
    "hi".data ≠ ([] : Str) :=
  C10_match_requires_word_speaker_and_text.1 ("Alice: hi".data) ("Alice".data)
    ("hi".data) (by decide)
